import Mathlib

/-!
Verification of the shared-memory event ring of `src/category/core/event/event_ring.h`.

The C structures and inline functions are shallowly embedded:

* pointers into the mapped ring become functions from byte / slot offsets
  (`descriptors : ℕ → monad_event_descriptor`, `payload_buf : ℕ → ℕ`);
* machine integers (`uint64_t` offsets, masks, sequence numbers) become `ℕ`;
  the only arithmetic the embedded functions perform on them is `&&&`, `≥`
  and a subtraction `seqno - 1` that is guarded by `seqno == 0`, so no
  overflow wrapping can occur and `ℕ` is exact;
* each atomic acquire load of a shared mutable cell (the slot `seqno`, the
  control block's `buffer_window_start`) is made explicit: either as a
  parameter holding the loaded value, or as a step of an interleaved
  state machine (see the publication-race model further down);
* `memcpy` on a caller buffer modelled as `List ℕ` of bytes replaces the
  first `n` bytes of the destination.
-/

/-- Embedding of `struct monad_event_descriptor` (event_ring.h:70-79):
`seqno`, `event_type`, 16 unused padding bits (not represented: they carry no
value), `payload_size`, `record_epoch_nanos`, `payload_buf_offset` and
`content_ext[4]` as a 4-element list. -/
structure monad_event_descriptor where
  seqno : ℕ
  event_type : ℕ
  payload_size : ℕ
  record_epoch_nanos : ℕ
  payload_buf_offset : ℕ
  content_ext : List ℕ
deriving DecidableEq, Repr

/-- Embedding of `struct monad_event_ring` (event_ring.h:53-62).  The
`descriptors` and `payload_buf` pointers become functions from slot index /
byte offset; `mmap_prot`, `header` and `context_area` carry no behavior used
by the inline functions and are omitted, except that the one field of the
header the reader-side functions consult — the shared atomic cell
`header->control.buffer_window_start` — is mutated concurrently by the
writer, so each acquire load of it is passed explicitly to the functions
that perform such a load. -/
structure monad_event_ring where
  descriptors : ℕ → monad_event_descriptor
  payload_buf : ℕ → ℕ
  desc_capacity_mask : ℕ
  payload_buf_mask : ℕ

/-- Embedding of `monad_event_ring_try_copy` (event_ring.h:248-264) in the
sequential (single observed memory state) view: the 64-byte struct copy
`*event = *ring_event` and the subsequent acquire load of
`ring_event->seqno` read the same slot contents.  The result pair is
(return value, final contents of the caller's `*event` output buffer); the
C function writes `*event` before the seqno check, so the slot contents are
returned in the second component even on the mismatch failure path, while
the `seqno == 0` early return leaves `*event` untouched. -/
def monad_event_ring_try_copy (event_ring : monad_event_ring) (seqno : ℕ)
    (event : monad_event_descriptor) : Bool × monad_event_descriptor :=
  if seqno = 0 then
    (false, event)
  else
    let ring_event :=
      event_ring.descriptors ((seqno - 1) &&& event_ring.desc_capacity_mask)
    let ring_seqno := ring_event.seqno
    if ring_seqno ≠ seqno then
      (false, ring_event)
    else
      (true, ring_event)

/-- Embedding of `monad_event_ring_payload_peek` (event_ring.h:266-272).
The returned pointer `payload_buf + (offset & mask)` is modelled as the byte
offset from the `payload_buf` base. -/
def monad_event_ring_payload_peek (event_ring : monad_event_ring)
    (event : monad_event_descriptor) : ℕ :=
  event.payload_buf_offset &&& event_ring.payload_buf_mask

/-- Embedding of `monad_event_ring_payload_check` (event_ring.h:274-282).
`buffer_window_start` is the value returned by the atomic acquire load of
`event_ring->header->control.buffer_window_start` performed by the call. -/
def monad_event_ring_payload_check (buffer_window_start : ℕ)
    (event : monad_event_descriptor) : Bool :=
  decide (event.payload_buf_offset ≥ buffer_window_start)

/-- Embedding of `monad_event_ring_payload_memcpy` (event_ring.h:284-297).
`w1` and `w2` are the values returned by the two atomic acquire loads of
`buffer_window_start` (one per `monad_event_ring_payload_check` call); the
writer may advance the window between them.  `dst` is the caller's buffer
as a byte list; `memcpy(dst, src, n)` replaces its first `n` bytes with the
`n` payload-buffer bytes starting at the peeked offset.  The result pair is
(return value, final contents of `dst`). -/
def monad_event_ring_payload_memcpy (event_ring : monad_event_ring)
    (w1 w2 : ℕ) (event : monad_event_descriptor) (dst : List ℕ) (n : ℕ) :
    Option (List ℕ) × List ℕ :=
  if monad_event_ring_payload_check w1 event = false then
    (none, dst)
  else
    let src := monad_event_ring_payload_peek event_ring event
    let dst1 :=
      (List.range n).map (fun i => event_ring.payload_buf (src + i)) ++
        dst.drop n
    if monad_event_ring_payload_check w2 event = false then
      (none, dst1)
    else
      (some dst1, dst1)

/-!  Concrete rings and descriptors used by witnesses and counterexamples. -/

/-- A concrete descriptor whose seqno is 1, stored in every slot of `witRing`. -/
def witDescA : monad_event_descriptor := ⟨1, 2, 16, 1000, 48, [3, 4, 5, 6]⟩

/-- A concrete descriptor different from `witDescA` in every field. -/
def witDescB : monad_event_descriptor := ⟨9, 7, 32, 2000, 64, [8, 8, 8, 8]⟩

/-- A concrete mapped ring: every descriptor slot holds `witDescA`, payload
byte at offset `a` is `a + 100`, `desc_capacity_mask = 2^2 - 1`,
`payload_buf_mask = 2^5 - 1`. -/
def witRing : monad_event_ring :=
  ⟨fun _ => witDescA, fun a => a + 100, 3, 31⟩

/-- C2: for every event ring handle and sequence number `s`,
`monad_event_ring_try_copy` returns failure when `s = 0`; otherwise it
copies the descriptor at slot `(s - 1) % descriptor_capacity` into the
output buffer and succeeds exactly when that slot's acquire-loaded `seqno`
equals `s` (the hypothesis is that the mask is `capacity - 1` for a
power-of-two capacity, which is how `monad_event_ring_mmap` derives it). -/
theorem try_copy_spec (ring : monad_event_ring) (s : ℕ)
    (out : monad_event_descriptor) (k : ℕ)
    (hmask : ring.desc_capacity_mask = 2 ^ k - 1) :
    monad_event_ring_try_copy ring s out =
      if s = 0 then (false, out)
      else
        (decide ((ring.descriptors ((s - 1) % 2 ^ k)).seqno = s),
          ring.descriptors ((s - 1) % 2 ^ k)) := by
  by_cases h0 : s = 0
  · subst h0
    rfl
  · have hand : (s - 1) &&& ring.desc_capacity_mask = (s - 1) % 2 ^ k := by
      rw [hmask, Nat.and_pow_two_sub_one_eq_mod]
    simp only [monad_event_ring_try_copy, if_neg h0, hand]
    by_cases hseq : (ring.descriptors ((s - 1) % 2 ^ k)).seqno = s
    · simp [hseq]
    · simp [hseq]

/-- Witness for C2 at the concrete ring `witRing` (mask `3 = 2^2 - 1`)
with requested seqno 1, which matches slot 0's stored seqno. -/
theorem try_copy_spec_witness :
    witRing.desc_capacity_mask = 2 ^ 2 - 1 ∧
    monad_event_ring_try_copy witRing 1 witDescB =
      (if (1 : ℕ) = 0 then (false, witDescB)
        else
          (decide ((witRing.descriptors ((1 - 1) % 2 ^ 2)).seqno = 1),
            witRing.descriptors ((1 - 1) % 2 ^ 2))) :=
  ⟨rfl, try_copy_spec witRing 1 witDescB 2 rfl⟩

/-- C4: `monad_event_ring_payload_check` returns true iff the descriptor's
`payload_buf_offset` is at least the acquire-loaded `buffer_window_start`;
this is the expiration test. -/
theorem payload_check_expiration_test (w : ℕ)
    (event : monad_event_descriptor) :
    monad_event_ring_payload_check w event = true ↔
      event.payload_buf_offset ≥ w := by
  simp [monad_event_ring_payload_check]

/-- C5: for a mapped ring whose `payload_buf_mask` is `payload_buf_size - 1`
with `payload_buf_size = 2^k`, `monad_event_ring_payload_peek` returns the
pointer `payload_buf + (payload_buf_offset mod payload_buf_size)` (as the
byte offset from the `payload_buf` base). -/
theorem payload_peek_mod (ring : monad_event_ring)
    (event : monad_event_descriptor) (k : ℕ)
    (hmask : ring.payload_buf_mask = 2 ^ k - 1) :
    monad_event_ring_payload_peek ring event =
      event.payload_buf_offset % 2 ^ k := by
  rw [monad_event_ring_payload_peek, hmask,
    Nat.and_pow_two_sub_one_eq_mod]

/-- Witness for C5 at `witRing` (mask `31 = 2^5 - 1`) and `witDescA`
(offset 48, so the peeked offset is `48 % 32 = 16`). -/
theorem payload_peek_mod_witness :
    witRing.payload_buf_mask = 2 ^ 5 - 1 ∧
    monad_event_ring_payload_peek witRing witDescA =
      witDescA.payload_buf_offset % 2 ^ 5 ∧
    monad_event_ring_payload_peek witRing witDescA = 16 :=
  ⟨rfl, payload_peek_mod witRing witDescA 5 rfl, by decide⟩

/-- C3: `monad_event_ring_payload_memcpy` follows the double-check
protocol: the result is absent iff at least one of the two
`monad_event_ring_payload_check` calls (with acquire-loaded windows `w1`
before the copy and `w2` after it) reports expiration, and the destination
buffer with its first `n` bytes replaced by the payload bytes is returned
exactly when both checks succeed. -/
theorem payload_memcpy_double_check (ring : monad_event_ring) (w1 w2 : ℕ)
    (event : monad_event_descriptor) (dst : List ℕ) (n : ℕ) :
    ((monad_event_ring_payload_memcpy ring w1 w2 event dst n).1 = none ↔
      monad_event_ring_payload_check w1 event = false ∨
        monad_event_ring_payload_check w2 event = false) ∧
    ((monad_event_ring_payload_memcpy ring w1 w2 event dst n).1 =
        some ((List.range n).map
            (fun i => ring.payload_buf
              (monad_event_ring_payload_peek ring event + i)) ++
          dst.drop n) ↔
      monad_event_ring_payload_check w1 event = true ∧
        monad_event_ring_payload_check w2 event = true) := by
  by_cases h1 : monad_event_ring_payload_check w1 event = false
  · simp [monad_event_ring_payload_memcpy, h1]
  · by_cases h2 : monad_event_ring_payload_check w2 event = false
    · simp [monad_event_ring_payload_memcpy, h1, h2]
    · simp [monad_event_ring_payload_memcpy, h1, h2]

/-- C9: a successful `monad_event_ring_payload_memcpy` copies exactly the
`n` caller-requested bytes starting at the payload-buffer byte
`payload_buf_offset mod payload_buf_size`; the length is never clamped to
the descriptor's `payload_size`, and the whole function is independent of
`payload_size` (so a caller passing `n` larger than the event's payload
receives the adjacent payload-buffer bytes beyond it). -/
theorem payload_memcpy_exact_n (ring : monad_event_ring) (w1 w2 : ℕ)
    (event : monad_event_descriptor) (dst : List ℕ) (n k ps : ℕ)
    (hmask : ring.payload_buf_mask = 2 ^ k - 1)
    (hsome :
      (monad_event_ring_payload_memcpy ring w1 w2 event dst n).1.isSome =
        true) :
    (monad_event_ring_payload_memcpy ring w1 w2 event dst n).1 =
      some ((List.range n).map
          (fun i => ring.payload_buf
            (event.payload_buf_offset % 2 ^ k + i)) ++
        dst.drop n) ∧
    ((List.range n).map
        (fun i => ring.payload_buf
          (event.payload_buf_offset % 2 ^ k + i))).length = n ∧
    monad_event_ring_payload_memcpy ring w1 w2
        { event with payload_size := ps } dst n =
      monad_event_ring_payload_memcpy ring w1 w2 event dst n := by
  have hpeek : monad_event_ring_payload_peek ring event =
      event.payload_buf_offset % 2 ^ k := payload_peek_mod ring event k hmask
  refine ⟨?_, by simp, ?_⟩
  · by_cases h1 : monad_event_ring_payload_check w1 event = false
    · rw [monad_event_ring_payload_memcpy, if_pos h1] at hsome
      simp at hsome
    · by_cases h2 : monad_event_ring_payload_check w2 event = false
      · rw [monad_event_ring_payload_memcpy, if_neg h1] at hsome
        simp only [if_pos h2] at hsome
        simp at hsome
      · simp only [monad_event_ring_payload_memcpy, if_neg h1, if_neg h2,
          hpeek]
  · simp only [monad_event_ring_payload_memcpy,
      monad_event_ring_payload_check, monad_event_ring_payload_peek]

/-- Witness for C9 at `witRing` (payload mask `31 = 2^5 - 1`), `witDescA`
(offset 48), `n = 3`, with both window loads returning 40 (≤ 48, so both
checks pass and the call succeeds): the copied bytes are the payload-buffer
bytes at offsets 16, 17, 18, i.e. 116, 117, 118. -/
theorem payload_memcpy_exact_n_witness :
    witRing.payload_buf_mask = 2 ^ 5 - 1 ∧
    (monad_event_ring_payload_memcpy witRing 40 40 witDescA [0, 0, 0, 0]
        3).1.isSome = true ∧
    (monad_event_ring_payload_memcpy witRing 40 40 witDescA [0, 0, 0, 0]
        3).1 =
      some ((List.range 3).map
          (fun i => witRing.payload_buf
            (witDescA.payload_buf_offset % 2 ^ 5 + i)) ++
        ([0, 0, 0, 0] : List ℕ).drop 3) ∧
    (monad_event_ring_payload_memcpy witRing 40 40 witDescA [0, 0, 0, 0]
        3).1 = some [116, 117, 118, 0] :=
  ⟨rfl, by decide,
    (payload_memcpy_exact_n witRing 40 40 witDescA [0, 0, 0, 0] 3 5 99 rfl
      (by decide)).1,
    by decide⟩

/-- A concrete ring for the C10 counterexample: every descriptor slot holds
`witDescA`. -/
def cexRing : monad_event_ring := ⟨fun _ => witDescA, fun _ => 0, 3, 31⟩

/-- C10 counterexample: the claim asserts that `monad_event_ring_try_copy`
overwrites the caller's output descriptor with the slot's 64 bytes whenever
it returns false, but the `seqno == 0` early return (event_ring.h:252-254)
fires before the copy: with every slot of `cexRing` holding `witDescA`, the
call with sequence number 0 and output buffer `witDescB` returns false and
leaves the output buffer equal to `witDescB`, which differs from the
contents of every slot. -/
theorem try_copy_seqno0_frame_cex :
    monad_event_ring_try_copy cexRing 0 witDescB = (false, witDescB) ∧
    witDescB ≠ witDescA ∧
    cexRing.descriptors = fun _ => witDescA :=
  ⟨rfl, by decide, rfl⟩

/-- C10 (amended): failure is not atomic in the destination.
`monad_event_ring_payload_memcpy` leaves `dst` unchanged exactly when the
first window check fails (so a failure reported by the second, post-copy
check leaves `dst` already overwritten with the `n` copied bytes), and
`monad_event_ring_try_copy` overwrites the caller's output descriptor with
the slot's 64 bytes on every call with a nonzero requested seqno — in
particular also when it returns false because of a seqno mismatch — while
the `seqno == 0` early return leaves the output descriptor untouched. -/
theorem payload_memcpy_try_copy_frame (ring : monad_event_ring)
    (w1 w2 : ℕ) (event : monad_event_descriptor) (dst : List ℕ) (n : ℕ)
    (s : ℕ) (out : monad_event_descriptor) :
    (monad_event_ring_payload_memcpy ring w1 w2 event dst n).2 =
      (if monad_event_ring_payload_check w1 event = true then
        (List.range n).map
            (fun i => ring.payload_buf
              (monad_event_ring_payload_peek ring event + i)) ++
          dst.drop n
      else dst) ∧
    (monad_event_ring_try_copy ring s out).2 =
      (if s = 0 then out
      else ring.descriptors ((s - 1) &&& ring.desc_capacity_mask)) := by
  constructor
  · by_cases h1 : monad_event_ring_payload_check w1 event = false
    · simp [monad_event_ring_payload_memcpy, h1]
    · by_cases h2 : monad_event_ring_payload_check w2 event = false
      · simp [monad_event_ring_payload_memcpy, h1, h2]
      · simp [monad_event_ring_payload_memcpy, h1, h2]
  · by_cases h0 : s = 0
    · simp [monad_event_ring_try_copy, h0]
    · by_cases hseq :
        (ring.descriptors ((s - 1) &&& ring.desc_capacity_mask)).seqno = s
      · simp [monad_event_ring_try_copy, h0, hseq]
      · simp [monad_event_ring_try_copy, h0, hseq]

/-!  C6: layout of `struct monad_event_descriptor`.  The C layout rules for
a standard-layout struct are embedded: each field is placed at the next
offset aligned to the field's alignment, the struct's alignment is the
maximum of the member alignments (and of any `alignas`), and the struct's
size is the end of the last field rounded up to the struct alignment. -/

/-- Round `off` up to the next multiple of `a`. -/
def alignUp (off a : ℕ) : ℕ := (off + a - 1) / a * a

/-- Size and alignment of one C struct field. -/
structure CField where
  fsize : ℕ
  falign : ℕ
deriving DecidableEq, Repr

/-- Offsets assigned to a field list starting at offset `off`. -/
def fieldOffsets : ℕ → List CField → List ℕ
  | _, [] => []
  | off, f :: fs =>
    alignUp off f.falign :: fieldOffsets (alignUp off f.falign + f.fsize) fs

/-- End offset (one past the last byte) of a field list placed from `off`. -/
def fieldsEnd : ℕ → List CField → ℕ
  | off, [] => off
  | off, f :: fs => fieldsEnd (alignUp off f.falign + f.fsize) fs

/-- Alignment of a struct: maximum of the member alignments and `base`
(the latter accounts for an `alignas` on the struct or a member). -/
def structAlign (base : ℕ) (fields : List CField) : ℕ :=
  fields.foldl (fun a f => max a f.falign) base

/-- Size of a struct: the end of its last field rounded up to its alignment. -/
def structSize (base : ℕ) (fields : List CField) : ℕ :=
  alignUp (fieldsEnd 0 fields) (structAlign base fields)

/-- Field list of `struct monad_event_descriptor` (event_ring.h:70-79), in
declaration order with the C sizes and alignments on x86-64:
`alignas(64) uint64_t seqno` (size 8, alignment 64 from the `alignas`),
`uint16_t event_type` (2, 2), the anonymous 16-bit padding bitfield (2, 2),
`uint32_t payload_size` (4, 4), `uint64_t record_epoch_nanos` (8, 8),
`uint64_t payload_buf_offset` (8, 8), `uint64_t content_ext[4]` (32, 8). -/
def monad_event_descriptor_fields : List CField :=
  [⟨8, 64⟩, ⟨2, 2⟩, ⟨2, 2⟩, ⟨4, 4⟩, ⟨8, 8⟩, ⟨8, 8⟩, ⟨32, 8⟩]

/-- C6: `struct monad_event_descriptor` is exactly 64 bytes with 64-byte
alignment (the `static_assert` at event_ring.h:81 checks the size); its
`seqno` field occupies bytes 0..7, followed by the 16-bit `event_type` at
offset 8, 16 reserved bits at offset 10, the 32-bit `payload_size` at
offset 12, the 64-bit `record_epoch_nanos` at offset 16, the 64-bit
`payload_buf_offset` at offset 24, and the four 64-bit `content_ext` words
at offset 32. -/
theorem descriptor_layout_64 :
    fieldOffsets 0 monad_event_descriptor_fields =
      [0, 8, 10, 12, 16, 24, 32] ∧
    structSize 1 monad_event_descriptor_fields = 64 ∧
    structAlign 1 monad_event_descriptor_fields = 64 ∧
    ((monad_event_descriptor_fields.map CField.fsize).headI = 8 ∧
      (fieldOffsets 0 monad_event_descriptor_fields).headI = 0) := by
  decide

/-!  C7 and C8: event ring sizing, file initialization and the header
magic.  The shift-bound constants and the magic/version constant are in
src (event_ring.h:195-216); the bodies of `monad_event_ring_init_size`,
`monad_event_ring_init_file` and `monad_event_ring_mmap` are declared in
event_ring.h but their implementation file is not under src/, so those
bodies are modelled from the spec. -/

/-- Constant from event_ring.h:206. -/
def MONAD_EVENT_MIN_DESCRIPTORS_SHIFT : ℕ := 16

/-- Constant from event_ring.h:207. -/
def MONAD_EVENT_MAX_DESCRIPTORS_SHIFT : ℕ := 32

/-- Constant from event_ring.h:209. -/
def MONAD_EVENT_MIN_PAYLOAD_BUF_SHIFT : ℕ := 27

/-- Constant from event_ring.h:210. -/
def MONAD_EVENT_MAX_PAYLOAD_BUF_SHIFT : ℕ := 40

/-- Embedding of `struct monad_event_ring_size` (event_ring.h:84-89). -/
structure monad_event_ring_size where
  descriptor_capacity : ℕ
  payload_buf_size : ℕ
  context_area_size : ℕ
deriving DecidableEq, Repr

/-- Error taxonomy of the spec (§7). -/
inductive monad_event_ring_error where
  | InvalidSize
  | BadFile
  | IoError
  | AlreadyInitialized
  | BadMagic
  | SchemaMismatch
deriving DecidableEq, Repr

/-- Size of one large page; the spec says the context area is sized in
large pages without pinning the page size, so the common x86-64 2 MiB huge
page is used (the value plays no role in any claim). -/
def LARGE_PAGE_SIZE : ℕ := 2 ^ 21

/-- Modelled from the spec: the body of `monad_event_ring_init_size` is
declared at event_ring.h:128-130 but its implementation file is not under
src/.  Per spec §4.1 it produces a size structure iff the two shifts fall
within the documented bounds (`descriptor_capacity = 2^k`, k in 16..32;
`payload_buf_size = 2^k`, k in 27..40, the bounds being the constants of
event_ring.h:206-210), and an out-of-range shift fails with InvalidSize. -/
def monad_event_ring_init_size
    (descriptors_shift payload_buf_shift context_large_pages : ℕ) :
    Except monad_event_ring_error monad_event_ring_size :=
  if descriptors_shift < MONAD_EVENT_MIN_DESCRIPTORS_SHIFT ∨
      MONAD_EVENT_MAX_DESCRIPTORS_SHIFT < descriptors_shift then
    .error .InvalidSize
  else if payload_buf_shift < MONAD_EVENT_MIN_PAYLOAD_BUF_SHIFT ∨
      MONAD_EVENT_MAX_PAYLOAD_BUF_SHIFT < payload_buf_shift then
    .error .InvalidSize
  else
    .ok ⟨2 ^ descriptors_shift, 2 ^ payload_buf_shift,
      context_large_pages * LARGE_PAGE_SIZE⟩

/-- C7: `monad_event_ring_init_size` accepts a descriptors shift only in
16..32 and a payload-buffer shift only in 27..40, yielding the two
power-of-two sizes, and fails with InvalidSize for every shift outside
these bounds. -/
theorem init_size_shift_bounds (ds bs c : ℕ) :
    monad_event_ring_init_size ds bs c =
      (if 16 ≤ ds ∧ ds ≤ 32 ∧ 27 ≤ bs ∧ bs ≤ 40 then
        .ok ⟨2 ^ ds, 2 ^ bs, c * LARGE_PAGE_SIZE⟩
      else .error .InvalidSize) := by
  simp only [monad_event_ring_init_size, MONAD_EVENT_MIN_DESCRIPTORS_SHIFT,
    MONAD_EVENT_MAX_DESCRIPTORS_SHIFT, MONAD_EVENT_MIN_PAYLOAD_BUF_SHIFT,
    MONAD_EVENT_MAX_PAYLOAD_BUF_SHIFT]
  split_ifs <;> first | rfl | omega

/-- Constant from event_ring.h:195-196: the magic/version octets
`'R','I','N','G','0','1'` (as byte values). -/
def MONAD_EVENT_RING_HEADER_VERSION : List ℕ :=
  ['R', 'I', 'N', 'G', '0', '1'].map Char.toNat

/-- Little-endian byte serialization of `v` in `width` bytes. -/
def leBytes (width v : ℕ) : List ℕ :=
  (List.range width).map fun i => v / 2 ^ (8 * i) % 256

/-- Modelled from the spec: the header image written by
`monad_event_ring_init_file`, whose body is not under src/ (declared at
event_ring.h:140-143).  Per spec §4.2 and the file-format table of §6 a
fresh header holds, from offset 0: the 6 magic octets `RINGvv`, the
little-endian 16-bit `content_type`, the 32-byte schema hash, the three
64-bit sizes, and a zeroed control block (last_seqno, next_payload_byte,
then padding placing buffer_window_start on its own 64-byte line). -/
def monad_event_ring_init_file_header (content_type : ℕ)
    (schema_hash : List ℕ) (size : monad_event_ring_size) : List ℕ :=
  MONAD_EVENT_RING_HEADER_VERSION ++
    leBytes 2 content_type ++
    (schema_hash.take 32 ++ List.replicate (32 - schema_hash.length) 0) ++
    leBytes 8 size.descriptor_capacity ++
    leBytes 8 size.payload_buf_size ++
    leBytes 8 size.context_area_size ++
    List.replicate 128 0

/-- Modelled from the spec: the magic/version verification performed by
`monad_event_ring_mmap` (body not under src/; declared at
event_ring.h:148-150).  Per spec §4.3 the mapping must "verify the
magic/version octets exactly". -/
def monad_event_ring_check_magic (bytes : List ℕ) : Bool :=
  decide (bytes.take 6 = MONAD_EVENT_RING_HEADER_VERSION)

/-- C8: the header magic written by file initialization and verified on
map is exactly the six ASCII octets `R I N G 0 1` at offset 0 of the ring
header, and its last two bytes are the digits of the current version
(version "01"). -/
theorem header_magic_ring01 (ct : ℕ) (hash : List ℕ)
    (sz : monad_event_ring_size) :
    (monad_event_ring_init_file_header ct hash sz).take 6 =
      ['R', 'I', 'N', 'G', '0', '1'].map Char.toNat ∧
    ['R', 'I', 'N', 'G', '0', '1'].map Char.toNat =
      [82, 73, 78, 71, 48, 49] ∧
    MONAD_EVENT_RING_HEADER_VERSION.drop 4 = ['0', '1'].map Char.toNat ∧
    monad_event_ring_check_magic
      (monad_event_ring_init_file_header ct hash sz) = true := by
  have htake : (monad_event_ring_init_file_header ct hash sz).take 6 =
      MONAD_EVENT_RING_HEADER_VERSION := by
    simp [monad_event_ring_init_file_header, MONAD_EVENT_RING_HEADER_VERSION,
      List.take_append_of_le_length]
  refine ⟨by rw [htake]; rfl, by decide, by decide, ?_⟩
  simp [monad_event_ring_check_magic, htake]

/-!  C1: the publication protocol under writer/reader interleavings.

One descriptor slot (the slot `(s - 1) mod capacity` of the sequence
numbers in question) is modelled as an interleaved state machine.  The 64
bytes of the slot are the `seqno` word and seven 8-byte body words
(`event_type` with the padding and `payload_size`, `record_epoch_nanos`,
`payload_buf_offset` and the four `content_ext` words).  The single
writer's publication of an event (spec §4.4 steps 7-8) stores the seven
body words and then, last, the release store of `seqno`; the reader's
`monad_event_ring_try_copy` (event_ring.h:248-264) performs the 64-byte
struct copy `*event = *ring_event` word by word and then one acquire load
of `ring_event->seqno`, accepting iff the loaded value equals the
requested sequence number.  Interleavings are modelled under sequential
consistency, which is stronger than the release/acquire ordering of the
source, so any behavior exhibited here is a behavior of the source
protocol a fortiori. -/

/-- The seven 8-byte body words of a descriptor slot (the 64 bytes minus
the leading `seqno` word). -/
structure Body7 where
  w0 : ℕ
  w1 : ℕ
  w2 : ℕ
  w3 : ℕ
  w4 : ℕ
  w5 : ℕ
  w6 : ℕ
deriving DecidableEq, Repr

/-- Read body word `i`. -/
def Body7.get (b : Body7) : ℕ → ℕ
  | 0 => b.w0
  | 1 => b.w1
  | 2 => b.w2
  | 3 => b.w3
  | 4 => b.w4
  | 5 => b.w5
  | 6 => b.w6
  | _ + 7 => 0

/-- Write body word `i`. -/
def Body7.set (b : Body7) : ℕ → ℕ → Body7
  | 0, v => { b with w0 := v }
  | 1, v => { b with w1 := v }
  | 2, v => { b with w2 := v }
  | 3, v => { b with w3 := v }
  | 4, v => { b with w4 := v }
  | 5, v => { b with w5 := v }
  | 6, v => { b with w6 := v }
  | _ + 7, _ => b

/-- Joint state of the shared slot and the reader's locals: the slot's
`seqno` word and body, the reader's partially filled local copy of both,
and the result of the reader's acquire load (none before it runs). -/
structure RaceState where
  slotSeq : ℕ
  slotBody : Body7
  copySeq : ℕ
  copyBody : Body7
  loadedSeq : Option ℕ
deriving DecidableEq, Repr

/-- Initial state: a never-written slot (`seqno = 0`, zeroed body, as
`monad_event_ring_init_file` leaves it) and a reader that has not run. -/
def initRace : RaceState := ⟨0, ⟨0, 0, 0, 0, 0, 0, 0⟩, 0, ⟨0, 0, 0, 0, 0, 0, 0⟩, none⟩

/-- Atomic actions on the slot.  `wbody i v` is the writer's store of body
word `i`; `wseq v` is the writer's release store of the `seqno` word;
`rcopy_seq` and `rcopy_body i` are the reader's word-sized reads performed
by the struct copy `*event = *ring_event`; `rload` is the reader's acquire
load of `ring_event->seqno`. -/
inductive SlotAct where
  | wbody (i v : ℕ)
  | wseq (v : ℕ)
  | rcopy_seq
  | rcopy_body (i : ℕ)
  | rload
deriving DecidableEq, Repr

/-- Effect of one action. -/
def slotStep (st : RaceState) : SlotAct → RaceState
  | .wbody i v => { st with slotBody := st.slotBody.set i v }
  | .wseq v => { st with slotSeq := v }
  | .rcopy_seq => { st with copySeq := st.slotSeq }
  | .rcopy_body i => { st with copyBody := st.copyBody.set i (st.slotBody.get i) }
  | .rload => { st with loadedSeq := some st.slotSeq }

/-- Run a list of actions. -/
def slotRun (st : RaceState) (acts : List SlotAct) : RaceState :=
  acts.foldl slotStep st

/-- The writer's publication of event `s` with body `b` (spec §4.4 steps
7-8): fill the seven body words, then store `seqno = s` last (release). -/
def writerPub (s : ℕ) (b : Body7) : List SlotAct :=
  [.wbody 0 b.w0, .wbody 1 b.w1, .wbody 2 b.w2, .wbody 3 b.w3,
    .wbody 4 b.w4, .wbody 5 b.w5, .wbody 6 b.w6, .wseq s]

/-- The single writer's whole action sequence on this slot: the successive
publications of the events `(s, b)` it records there (for a slot of index
`(s - 1) mod capacity`, successive events are `s`, `s + capacity`, ...). -/
def writerTrace : List (ℕ × Body7) → List SlotAct
  | [] => []
  | (s, b) :: rest => writerPub s b ++ writerTrace rest

/-- The reader's action sequence in `monad_event_ring_try_copy`
(event_ring.h:257-259): the word-by-word 64-byte struct copy, then the
acquire load of the slot's `seqno`. -/
def readerProg : List SlotAct :=
  [.rcopy_seq, .rcopy_body 0, .rcopy_body 1, .rcopy_body 2, .rcopy_body 3,
    .rcopy_body 4, .rcopy_body 5, .rcopy_body 6, .rload]

/-- The decision `monad_event_ring_try_copy` takes for requested sequence
number `s` (event_ring.h:252-263): fail if `s = 0`, otherwise succeed iff
the acquire-loaded slot seqno equals `s`. -/
def readerAccepts (st : RaceState) (s : ℕ) : Bool :=
  if s = 0 then false else decide (st.loadedSeq = some s)

/-- sched is an order-preserving merge of the action lists ws and rs. -/
def isMerge : List SlotAct → List SlotAct → List SlotAct → Bool
  | [], rs, sched => decide (rs = sched)
  | ws, [], sched => decide (ws = sched)
  | _ :: _, _ :: _, [] => false
  | w :: ws, r :: rs, c :: sched =>
    (decide (c = w) && isMerge ws (r :: rs) sched) ||
      (decide (c = r) && isMerge (w :: ws) rs sched)

/-- Running one publication block from any state publishes it. -/
theorem writerPub_run (s : ℕ) (b : Body7) (st : RaceState) :
    slotRun st (writerPub s b) = { st with slotSeq := s, slotBody := b } :=
  rfl

/-- Running the reader's program on a slot the writer does not touch
meanwhile copies the slot verbatim and acquire-loads its seqno. -/
theorem readerProg_run (st : RaceState) :
    slotRun st readerProg =
      { st with
        copySeq := st.slotSeq
        copyBody := st.slotBody
        loadedSeq := some st.slotSeq } :=
  rfl

/-- Writer actions never change the reader's local state. -/
theorem writerTrace_preserves_reader (evs : List (ℕ × Body7))
    (st : RaceState) :
    (slotRun st (writerTrace evs)).copySeq = st.copySeq ∧
    (slotRun st (writerTrace evs)).copyBody = st.copyBody ∧
    (slotRun st (writerTrace evs)).loadedSeq = st.loadedSeq := by
  induction evs generalizing st with
  | nil => exact ⟨rfl, rfl, rfl⟩
  | cons e rest ih =>
    obtain ⟨s, b⟩ := e
    rw [writerTrace, slotRun, List.foldl_append]
    exact ih { st with slotSeq := s, slotBody := b }

/-- Running a nonempty writer trace leaves the slot holding one of the
published events. -/
theorem writerTrace_run_cons (s : ℕ) (b : Body7)
    (rest : List (ℕ × Body7)) (st : RaceState) :
    ∃ p ∈ (s, b) :: rest, slotRun st (writerTrace ((s, b) :: rest)) =
      { st with slotSeq := p.1, slotBody := p.2 } := by
  induction rest generalizing s b st with
  | nil => exact ⟨(s, b), by simp, rfl⟩
  | cons e2 rest2 ih =>
    obtain ⟨s2, b2⟩ := e2
    rw [writerTrace, slotRun, List.foldl_append]
    obtain ⟨p, hp, heq⟩ := ih s2 b2 { st with slotSeq := s, slotBody := b }
    exact ⟨p, List.mem_cons_of_mem _ hp, heq⟩

/-- Running an appended action list runs both parts in order. -/
theorem slotRun_append (st : RaceState) (l1 l2 : List SlotAct) :
    slotRun st (l1 ++ l2) = slotRun (slotRun st l1) l2 :=
  List.foldl_append ..

/-- Writer actions never change the reader's copied seqno word. -/
theorem writerTrace_pres_copySeq (evs : List (ℕ × Body7)) (st : RaceState) :
    (slotRun st (writerTrace evs)).copySeq = st.copySeq :=
  (writerTrace_preserves_reader evs st).1

/-- Writer actions never change the reader's copied body. -/
theorem writerTrace_pres_copyBody (evs : List (ℕ × Body7)) (st : RaceState) :
    (slotRun st (writerTrace evs)).copyBody = st.copyBody :=
  (writerTrace_preserves_reader evs st).2.1

/-- Writer actions never change the reader's acquire-load result. -/
theorem writerTrace_pres_loadedSeq (evs : List (ℕ × Body7)) (st : RaceState) :
    (slotRun st (writerTrace evs)).loadedSeq = st.loadedSeq :=
  (writerTrace_preserves_reader evs st).2.2

/-- C1 (amended): in every schedule in which the reader's copy-and-check
sequence `readerProg` runs without interleaved writer activity on the slot
— the writer has completed some whole publications `evs1` before the
reader starts and performs the rest (`evs2`) only after the reader's
acquire load — if the reader's `monad_event_ring_try_copy` accepts
sequence number `s`, then the copied descriptor body consists bit-exactly
of the body words the writer produced for event `s` (and the copied seqno
word is `s`).  The claim's original unrestricted form, quantifying over
every interleaving, is refuted by `try_copy_interleaving_cex`. -/
theorem try_copy_uninterrupted_exact_bytes
    (evs1 evs2 : List (ℕ × Body7)) (s : ℕ)
    (hacc : readerAccepts
      (slotRun initRace
        (writerTrace evs1 ++ readerProg ++ writerTrace evs2)) s = true) :
    ∃ b, (s, b) ∈ evs1 ∧
      (slotRun initRace
        (writerTrace evs1 ++ readerProg ++ writerTrace evs2)).copyBody =
        b ∧
      (slotRun initRace
        (writerTrace evs1 ++ readerProg ++ writerTrace evs2)).copySeq =
        s := by
  simp only [slotRun_append, readerAccepts, readerProg_run,
    writerTrace_pres_copySeq, writerTrace_pres_copyBody,
    writerTrace_pres_loadedSeq] at hacc ⊢
  by_cases h0 : s = 0
  · simp [h0] at hacc
  · simp only [if_neg h0, decide_eq_true_eq, Option.some.injEq] at hacc
    rcases evs1 with _ | ⟨⟨s1, b1⟩, rest⟩
    · simp only [writerTrace, slotRun, List.foldl_nil, initRace] at hacc
      exact absurd hacc.symm h0
    · obtain ⟨p, hp, heq⟩ := writerTrace_run_cons s1 b1 rest initRace
      rw [heq] at hacc ⊢
      refine ⟨p.2, ?_, rfl, hacc⟩
      have hp1 : p.1 = s := hacc
      rw [← hp1]
      simpa using hp

/-- A concrete body used by the C1 witness. -/
def wBody : Body7 := ⟨10, 20, 30, 40, 50, 60, 70⟩

/-- Witness for C1 (amended): the writer fully publishes event 1 with body
`wBody`, then the reader runs uninterrupted; the reader accepts seqno 1 and
its copy is exactly `wBody`. -/
theorem try_copy_uninterrupted_exact_bytes_witness :
    readerAccepts
      (slotRun initRace
        (writerTrace [(1, wBody)] ++ readerProg ++ writerTrace [])) 1 =
      true ∧
    ∃ b, (1, b) ∈ [(1, wBody)] ∧
      (slotRun initRace
        (writerTrace [(1, wBody)] ++ readerProg ++
          writerTrace [])).copyBody = b ∧
      (slotRun initRace
        (writerTrace [(1, wBody)] ++ readerProg ++
          writerTrace [])).copySeq = 1 :=
  ⟨by decide,
    try_copy_uninterrupted_exact_bytes [(1, wBody)] [] 1 (by decide)⟩

/-- Body of the first event in the counterexample race. -/
def bodyA : Body7 := ⟨11, 11, 11, 11, 11, 11, 11⟩

/-- Body of the lapping event in the counterexample race. -/
def bodyB : Body7 := ⟨22, 22, 22, 22, 22, 22, 22⟩

/-- The writer's events in the counterexample: with descriptor capacity
2^16 (the minimum), sequence numbers 1 and 65537 = 1 + 2^16 occupy the
same slot `(s - 1) mod capacity = 0`; the writer publishes event 1 and
later reuses the slot for event 65537. -/
def cexEvents : List (ℕ × Body7) := [(1, bodyA), (65537, bodyB)]

/-- The counterexample schedule: the writer publishes event 1 completely;
the reader copies the seqno word and body word 0; the writer then starts
republishing the slot for event 65537 and has stored all seven body words
— but not yet the seqno — when the reader copies body words 1-6 and
performs its acquire load; the writer's release store of 65537 comes
last. -/
def cexSched : List SlotAct :=
  writerPub 1 bodyA ++
    [.rcopy_seq, .rcopy_body 0] ++
    [.wbody 0 bodyB.w0, .wbody 1 bodyB.w1, .wbody 2 bodyB.w2,
      .wbody 3 bodyB.w3, .wbody 4 bodyB.w4, .wbody 5 bodyB.w5,
      .wbody 6 bodyB.w6] ++
    [.rcopy_body 1, .rcopy_body 2, .rcopy_body 3, .rcopy_body 4,
      .rcopy_body 5, .rcopy_body 6, .rload] ++
    [.wseq 65537]

/-- C1 counterexample: `cexSched` is an order-preserving interleaving of
the single writer's action sequence for `cexEvents` with the reader's
`monad_event_ring_try_copy` action sequence, the reader's acquire load
returns seqno 1 so the copy is accepted and returned, yet the returned
descriptor body is not the body the writer produced for event 1: it mixes
one word of event 1 with six words of event 65537.  The claim's
bit-equality therefore does not hold for every interleaving with the
single writer. -/
theorem try_copy_interleaving_cex :
    isMerge (writerTrace cexEvents) readerProg cexSched = true ∧
    readerAccepts (slotRun initRace cexSched) 1 = true ∧
    (1, bodyA) ∈ cexEvents ∧
    (slotRun initRace cexSched).copyBody ≠ bodyA ∧
    (slotRun initRace cexSched).copyBody = ⟨11, 22, 22, 22, 22, 22, 22⟩ := by
  decide
